import Mathlib

/-!
# Verification of the shis2mirto conversion core

Shallow embedding of the SHIS-to-Mirto conversion code (`shis2mirto/conversion.py`):
the wavenumber matching scan, the viewing-geometry filter, the observation
subsetting, the matlab-datenum time conversion, and the assembly of the FOV
product, together with theorems settling the specified properties.

Floating-point values of the source are modelled as exact rationals; the local
clock of `datetime.fromtimestamp` is modelled as UTC.
-/

namespace Shis2Mirto

/-- A Python `datetime` value as the conversion code uses it: the proleptic
Gregorian ordinal of its calendar date (`datetime.toordinal`), the whole
seconds elapsed since midnight of that date, and the sub-second remainder
(the `microsecond` field, as an exact fraction of a second). -/
structure PyDateTime where
  ordinal : ℤ
  secs : ℕ
  frac : ℚ
deriving DecidableEq

/-- Embedding of `datetime.fromtimestamp` with the local clock modelled as UTC:
epoch seconds `t` give the date with proleptic ordinal `719163 + ⌊t / 86400⌋`
(719163 is the ordinal of 1970-01-01), the whole seconds since that date's
midnight, and the fractional-second remainder. -/
def fromtimestamp (t : ℚ) : PyDateTime :=
  { ordinal := 719163 + ⌊t / 86400⌋
    secs := (⌊t⌋ - 86400 * ⌊t / 86400⌋).toNat
    frac := t - (⌊t⌋ : ℚ) }

/-- `datetime.toordinal`: the proleptic Gregorian ordinal of the date. -/
def toordinal (d : PyDateTime) : ℤ := d.ordinal

/-- Adding `timedelta(days = n)` to a datetime. -/
def addDays (n : ℤ) (d : PyDateTime) : PyDateTime := { d with ordinal := d.ordinal + n }

/-- The `.seconds` field of the timedelta
`time - datetime(time.year, time.month, time.day, 0, 0, 0)`: the whole seconds
elapsed since local midnight (Python's timedelta `.seconds` drops microseconds). -/
def secondsSinceMidnight (d : PyDateTime) : ℕ := d.secs

/-- Embedding of `datetime_to_matlab_datenum` (conversion.py:37-43):
ordinal of the datetime shifted by 366 days, plus seconds-since-midnight
divided by `24.0 * 60.0 * 60.0`. -/
def datetime_to_matlab_datenum (time : PyDateTime) : ℚ :=
  let base_date_num : ℤ := toordinal (addDays 366 time)
  let additional_seconds : ℚ := (secondsSinceMidnight time : ℚ) / (24 * 60 * 60)
  (base_date_num : ℚ) + additional_seconds

/-- The body of the wavenumber matching loop (conversion.py:385-399) for the
desired value `d` at grid position `index`: `some v` when one of the three
match branches fires (`v` is the matched grid index), `none` when the body
leaves the scan state unchanged. -/
def branchResult (grid : List ℚ) (d : ℚ) (index : ℕ) : Option ℤ :=
  if d = grid.getD index 0 then some (index : ℤ)
  else if d = grid.getD (index + 1) 0 then some ((index : ℤ) + 1)
  else if grid.getD index 0 < d ∧ d < grid.getD (index + 1) 0 then
    (if d - grid.getD index 0 < grid.getD (index + 1) 0 - d then some (index : ℤ)
     else some ((index : ℤ) + 1))
  else none

/-- State of the wavenumber matching scan: the partially filled
`found_indexes` array and the `current_target` cursor. -/
structure MatchState where
  found : List ℤ
  target : ℕ
deriving DecidableEq

/-- One iteration of the matching loop (conversion.py:383-399): when the
cursor is still inside `found_indexes`, apply the loop body to the current
desired value; a fired branch stores the matched index and advances the
cursor. -/
def matchStep (grid desired : List ℚ) (index : ℕ) (s : MatchState) : MatchState :=
  if s.target < s.found.length then
    match branchResult grid (desired.getD s.target 0) index with
    | some v => { found := s.found.set s.target v, target := s.target + 1 }
    | none => s
  else s

/-- The matching scan after the first `n` grid positions, starting from
`found_indexes = numpy.ones(desired.shape) * -1` and `current_target = 0`. -/
def matchScan (grid desired : List ℚ) (n : ℕ) : MatchState :=
  (List.range n).foldl (fun s index => matchStep grid desired index s)
    { found := List.replicate desired.length (-1), target := 0 }

/-- The full matching scan `for index in range(0, temp_wnums.size - 1)`
(conversion.py:380-401): the resulting `found_indexes` array. -/
def runMatch (grid desired : List ℚ) : List ℤ :=
  (matchScan grid desired (grid.length - 1)).found

/-- The per-observation acceptance predicate of the geometry filter
(conversion.py:411): both bounds inclusive. -/
def inAngleRange (center_angle angle_range a : ℚ) : Bool :=
  decide (center_angle - angle_range ≤ a) && decide (a ≤ center_angle + angle_range)

/-- The geometry filter `angle_mask` (conversion.py:410-411). -/
def angleMask (center_angle angle_range : ℚ) (angles : List ℚ) : List Bool :=
  angles.map (inAngleRange center_angle angle_range)

/-- Numpy boolean-mask indexing `arr[mask]`: the elements at the positions
where the mask is true, in original order. -/
def maskFilter {α : Type} : List Bool → List α → List α
  | true :: bs, x :: xs => x :: maskFilter bs xs
  | false :: bs, _ :: xs => maskFilter bs xs
  | _, _ => []

/-- The positions at which a mask is true, in ascending order. -/
def trueIndices : List Bool → List ℕ
  | [] => []
  | true :: bs => 0 :: (trueIndices bs).map (· + 1)
  | false :: bs => (trueIndices bs).map (· + 1)

/-- The radiance-gathering loop (conversion.py:466-472): walk the records,
appending the rows at which the mask is true onto an accumulator that starts
as Python `None` (modelled by `Option.none`).  The subsequent
`numpy.reshape(all_obs_radiances, (num_obs, num_channels))` raises when the
accumulator is still `None`. -/
def accumulateRows : List Bool → List (List ℚ) → Option (List (List ℚ)) →
    Option (List (List ℚ))
  | b :: bs, row :: rows, acc =>
    accumulateRows bs rows
      (if b then
        (match acc with
         | none => some [row]
         | some a => some (a ++ [row]))
       else acc)
  | _, _, acc => acc

/-- The SHIS input file variables read by `create_fov_file`
(guidebook variable names). -/
structure ShisFile where
  wavenumber : List ℚ
  FOVangle : List ℚ
  Longitude : List ℚ
  Latitude : List ℚ
  base_time : ℚ
  time_offset : List ℚ
  radiance : List (List ℚ)
deriving DecidableEq

/-- The written `fov.nc` product: its dimensions and variables
(guidebook names). -/
structure FovFile where
  obsnum : ℕ
  channels : ℕ
  selected_channels : ℕ
  Longitude : List ℚ
  Latitude : List ℚ
  base_time : ℚ
  time_offset : List ℚ
  TimeFracDay : List ℚ
  FOVangle : List ℚ
  Radiance : List (List ℚ)
  Wavenumber : List ℚ
  SelWavenumber : List ℚ
  indxselchannel : List ℤ
  selradiances : List (List ℚ)
deriving DecidableEq

/-- Embedding of `create_fov_file` (conversion.py:353-511).  `Except.error`
models the run stopping without a finished product: the early `return` after
the "Unable to find desired wave numbers" warning (which happens before the
output file is even created), the `numpy.min` of an empty array, and the
`numpy.reshape` failure on the never-initialised radiance accumulator. -/
def create_fov_file (center_angle angle_range : ℚ) (shis : ShisFile)
    (input_wnums : List ℚ) : Except String FovFile :=
  let desired_wnums := List.insertionSort (· ≤ ·) input_wnums
  let temp_wnums := shis.wavenumber
  let found_indexes := runMatch temp_wnums desired_wnums
  match found_indexes with
  | [] => Except.error "zero-size array to reduction operation minimum"
  | f :: fs =>
    if fs.foldl min f < 0 then
      Except.error "Unable to find desired wave numbers in SHIS file"
    else
      let temp_angles := shis.FOVangle
      let angle_mask := angleMask center_angle angle_range temp_angles
      let num_obs := angle_mask.count true
      let num_channels := temp_wnums.length
      let num_selected_channels := found_indexes.length
      let temp_lon := maskFilter angle_mask shis.Longitude
      let temp_lat := maskFilter angle_mask shis.Latitude
      let temp_base_time := shis.base_time
      let temp_time_offset := maskFilter angle_mask shis.time_offset
      let matlab_times := temp_time_offset.map
        (fun o => datetime_to_matlab_datenum (fromtimestamp (o + temp_base_time)))
      let temp_fov_angles := maskFilter angle_mask temp_angles
      match accumulateRows angle_mask shis.radiance none with
      | none => Except.error "cannot reshape array of size 1"
      | some all_obs_radiances =>
        let temp_all_wavenums := temp_wnums
        let selected_wavenums := found_indexes.map
          (fun i => temp_all_wavenums.getD i.toNat 0)
        let selected_radiances := all_obs_radiances.map
          (fun row => found_indexes.map (fun i => row.getD i.toNat 0))
        Except.ok
          { obsnum := num_obs
            channels := num_channels
            selected_channels := num_selected_channels
            Longitude := temp_lon
            Latitude := temp_lat
            base_time := temp_base_time
            time_offset := temp_time_offset
            TimeFracDay := matlab_times
            FOVangle := temp_fov_angles
            Radiance := all_obs_radiances
            Wavenumber := temp_all_wavenums
            SelWavenumber := selected_wavenums
            indxselchannel := found_indexes.map (fun i => i + 1)
            selradiances := selected_radiances }

/-- The proleptic Gregorian ordinal of the calendar date containing epoch
second `t` (local clock modelled as UTC); spec-side vocabulary for C7. -/
def localOrdinalDay (t : ℚ) : ℤ := 719163 + ⌊t / 86400⌋

/-- The whole seconds elapsed between epoch second `t` and the local midnight
that precedes it; spec-side vocabulary for C7. -/
def wholeSecondsSinceMidnight (t : ℚ) : ℤ := ⌊t - 86400 * (⌊t / 86400⌋ : ℚ)⌋

/-- Invariant of the matching scan after the first `n` iterations: the
`found_indexes` array keeps the length of the desired list, entries at or
beyond the cursor still hold the sentinel, entries below the cursor were each
produced by a fired loop-body branch at some already-processed grid position,
are bounded by the number of processed iterations, and are monotonically
non-decreasing. -/
structure ScanInv (grid desired : List ℚ) (n : ℕ) (s : MatchState) : Prop where
  len : s.found.length = desired.length
  target_le : s.target ≤ desired.length
  unset : ∀ j, s.target ≤ j → j < desired.length → s.found.getD j 0 = -1
  set_le : ∀ j, j < s.target → s.found.getD j 0 ≤ (n : ℤ)
  mono : ∀ j, j + 1 < s.target → s.found.getD j 0 ≤ s.found.getD (j + 1) 0
  fired : ∀ j, j < s.target → ∃ index, index < n ∧ index + 1 < grid.length ∧
    branchResult grid (desired.getD j 0) index = some (s.found.getD j 0)

/-- A small SHIS input on which the conversion succeeds: five observations
(three inside the default angle window), three spectral channels, one desired
wavenumber that is exactly on the grid.  Used to witness the conditional
theorems on concrete data. -/
def sampleShis : ShisFile :=
  { wavenumber := [1, 2, 3]
    FOVangle := [-2, -1, 0, 1, 2]
    Longitude := [10, 11, 12, 13, 14]
    Latitude := [20, 21, 22, 23, 24]
    base_time := 0
    time_offset := [0, 0, 0, 0, 0]
    radiance := [[1, 2, 3], [4, 5, 6], [7, 8, 9], [10, 11, 12], [13, 14, 15]] }

/-- The FOV product `create_fov_file 0 (3/2) sampleShis [1]` writes. -/
def sampleOut : FovFile :=
  { obsnum := 3
    channels := 3
    selected_channels := 1
    Longitude := [11, 12, 13]
    Latitude := [21, 22, 23]
    base_time := 0
    time_offset := [0, 0, 0]
    TimeFracDay := [719529, 719529, 719529]
    FOVangle := [-1, 0, 1]
    Radiance := [[4, 5, 6], [7, 8, 9], [10, 11, 12]]
    Wavenumber := [1, 2, 3]
    SelWavenumber := [1]
    indxselchannel := [1]
    selradiances := [[4], [7], [10]] }

/-- A SHIS input whose grid misses the second desired wavenumber: desired
`[1, 2]` against grid `[1, 2]` leaves the last entry unmatched (the scan
consumes at most one desired value per grid pair). -/
def sampleShisUnmatched : ShisFile :=
  { wavenumber := [1, 2]
    FOVangle := [0]
    Longitude := [0]
    Latitude := [0]
    base_time := 0
    time_offset := [0]
    radiance := [[1, 2]] }

/-- A SHIS input on which the geometry filter selects zero observations
(the single viewing angle 10 lies outside the window `0 ± 3/2`). -/
def sampleShisEmptySel : ShisFile :=
  { wavenumber := [1, 2, 3]
    FOVangle := [10]
    Longitude := [0]
    Latitude := [0]
    base_time := 0
    time_offset := [0]
    radiance := [[1, 2, 3]] }

/-- A SHIS input whose grid `[5, 7]` starts above the desired wavenumber 1. -/
def sampleShisBelowGrid : ShisFile :=
  { wavenumber := [5, 7]
    FOVangle := [0]
    Longitude := [0]
    Latitude := [0]
    base_time := 0
    time_offset := [0]
    radiance := [[1, 2]] }



theorem getD_set_self (l : List ℤ) (i : ℕ) (v : ℤ) (h : i < l.length) :
    (l.set i v).getD i 0 = v := by
  rw [List.getD_eq_getElem _ _ (by simpa using h)]
  exact List.getElem_set_self _

theorem getD_set_ne (l : List ℤ) (i j : ℕ) (v : ℤ) (h : i ≠ j) :
    (l.set i v).getD j 0 = l.getD j 0 := by
  rw [List.getD_eq_getElem?_getD, List.getElem?_set_ne h, ← List.getD_eq_getElem?_getD]

theorem getD_replicate_neg_one (n j : ℕ) (h : j < n) :
    (List.replicate n (-1 : ℤ)).getD j 0 = -1 := by
  rw [List.getD_eq_getElem _ _ (by simpa using h)]
  exact List.getElem_replicate _ _

theorem getD_mem_of_lt {α : Type} (l : List α) (n : ℕ) (d : α) (h : n < l.length) :
    l.getD n d ∈ l := by
  rw [List.getD_eq_getElem _ _ h]
  exact List.getElem_mem h

theorem foldl_min_le_init (l : List ℤ) (a : ℤ) : l.foldl min a ≤ a := by
  induction l generalizing a with
  | nil => exact le_refl a
  | cons y ys ih => exact le_trans (ih (min a y)) (min_le_left a y)

theorem foldl_min_le_mem (l : List ℤ) (a x : ℤ) (h : x ∈ l) : l.foldl min a ≤ x := by
  induction l generalizing a with
  | nil => cases h
  | cons y ys ih =>
    rcases List.mem_cons.mp h with rfl | hx
    · exact le_trans (foldl_min_le_init ys (min a x)) (min_le_right a x)
    · exact ih (min a y) hx

theorem le_foldl_min (l : List ℤ) (a b : ℤ) (ha : b ≤ a) (h : ∀ x ∈ l, b ≤ x) :
    b ≤ l.foldl min a := by
  induction l generalizing a with
  | nil => exact ha
  | cons y ys ih =>
    exact ih (min a y) (le_min ha (h y (List.mem_cons_self y ys)))
      fun x hx => h x (List.mem_cons_of_mem y hx)

theorem branchResult_some (grid : List ℚ) (d : ℚ) (index : ℕ) {v : ℤ}
    (h : branchResult grid d index = some v) : v = (index : ℤ) ∨ v = (index : ℤ) + 1 := by
  unfold branchResult at h
  split_ifs at h <;> simp_all

theorem matchStep_eq_or (grid desired : List ℚ) (index : ℕ) (s : MatchState) :
    matchStep grid desired index s = s ∨
      (s.target < s.found.length ∧ ∃ v,
        branchResult grid (desired.getD s.target 0) index = some v ∧
        matchStep grid desired index s =
          { found := s.found.set s.target v, target := s.target + 1 }) := by
  by_cases h : s.target < s.found.length
  · cases hb : branchResult grid (desired.getD s.target 0) index with
    | none =>
      left
      unfold matchStep
      rw [if_pos h, hb]
    | some v =>
      right
      refine ⟨h, v, rfl, ?_⟩
      unfold matchStep
      rw [if_pos h, hb]
  · left
    unfold matchStep
    rw [if_neg h]

theorem matchScan_succ (grid desired : List ℚ) (n : ℕ) :
    matchScan grid desired (n + 1) = matchStep grid desired n (matchScan grid desired n) := by
  unfold matchScan
  rw [List.range_succ, List.foldl_append]
  rfl

theorem scanInv_zero (grid desired : List ℚ) :
    ScanInv grid desired 0 (matchScan grid desired 0) := by
  refine ⟨by simp [matchScan], by simp [matchScan], ?_, ?_, ?_, ?_⟩
  · intro j _ hj
    simpa [matchScan] using getD_replicate_neg_one desired.length j hj
  · intro j hj; exact absurd hj (by simp [matchScan])
  · intro j hj; exact absurd hj (by simp [matchScan])
  · intro j hj; exact absurd hj (by simp [matchScan])

theorem scanInv_succ (grid desired : List ℚ) (n : ℕ) (hn : n + 1 < grid.length)
    (h : ScanInv grid desired n (matchScan grid desired n)) :
    ScanInv grid desired (n + 1) (matchScan grid desired (n + 1)) := by
  rw [matchScan_succ]
  set s := matchScan grid desired n with hs
  rcases matchStep_eq_or grid desired n s with heq | ⟨hlt, v, hbr, heq⟩
  · rw [heq]
    refine ⟨h.len, h.target_le, h.unset, ?_, h.mono, ?_⟩
    · intro j hj
      exact le_trans (h.set_le j hj) (by push_cast; omega)
    · intro j hj
      obtain ⟨index, h1, h2, h3⟩ := h.fired j hj
      exact ⟨index, Nat.lt_succ_of_lt h1, h2, h3⟩
  · rw [heq]
    have hlen : s.found.length = desired.length := h.len
    have htlt : s.target < desired.length := hlen ▸ hlt
    have hvn : v = (n : ℤ) ∨ v = (n : ℤ) + 1 := branchResult_some grid _ n hbr
    refine ⟨?_, ?_, ?_, ?_, ?_, ?_⟩
    · simpa using hlen
    · exact htlt
    · intro j hj hjlen
      replace hj : s.target + 1 ≤ j := hj
      show (s.found.set s.target v).getD j 0 = -1
      have hne : s.target ≠ j := by omega
      rw [getD_set_ne _ _ _ _ hne]
      exact h.unset j (by omega) hjlen
    · intro j hj
      replace hj : j < s.target + 1 := hj
      show (s.found.set s.target v).getD j 0 ≤ ((n + 1 : ℕ) : ℤ)
      rcases Nat.lt_or_ge j s.target with hjlt | hjge
      · have hne : s.target ≠ j := by omega
        rw [getD_set_ne _ _ _ _ hne]
        exact le_trans (h.set_le j hjlt) (by push_cast; omega)
      · have hje : j = s.target := by omega
        subst hje
        rw [getD_set_self _ _ _ hlt]
        rcases hvn with rfl | rfl <;> push_cast <;> omega
    · intro j hj
      replace hj : j + 1 < s.target + 1 := hj
      show (s.found.set s.target v).getD j 0 ≤ (s.found.set s.target v).getD (j + 1) 0
      rcases Nat.lt_or_ge (j + 1) s.target with hjlt | hjge
      · have hne1 : s.target ≠ j := by omega
        have hne2 : s.target ≠ j + 1 := by omega
        rw [getD_set_ne _ _ _ _ hne1, getD_set_ne _ _ _ _ hne2]
        exact h.mono j hjlt
      · have hje : j + 1 = s.target := by omega
        have hne1 : s.target ≠ j := by omega
        rw [getD_set_ne _ _ _ _ hne1, hje, getD_set_self _ _ _ hlt]
        have h1 : s.found.getD j 0 ≤ (n : ℤ) := h.set_le j (by omega)
        rcases hvn with rfl | rfl <;> omega
    · intro j hj
      replace hj : j < s.target + 1 := hj
      show ∃ index, index < n + 1 ∧ index + 1 < grid.length ∧
        branchResult grid (desired.getD j 0) index =
          some ((s.found.set s.target v).getD j 0)
      rcases Nat.lt_or_ge j s.target with hjlt | hjge
      · have hne : s.target ≠ j := by omega
        rw [getD_set_ne _ _ _ _ hne]
        obtain ⟨index, h1, h2, h3⟩ := h.fired j hjlt
        exact ⟨index, Nat.lt_succ_of_lt h1, h2, h3⟩
      · have hje : j = s.target := by omega
        subst hje
        rw [getD_set_self _ _ _ hlt]
        exact ⟨n, Nat.lt_succ_self n, hn, hbr⟩

theorem scanInv_of_le (grid desired : List ℚ) :
    ∀ n, n ≤ grid.length - 1 → ScanInv grid desired n (matchScan grid desired n) := by
  intro n
  induction n with
  | zero => intro _; exact scanInv_zero grid desired
  | succ m ih =>
    intro hm
    have hlt : m + 1 < grid.length := by omega
    exact scanInv_succ grid desired m hlt (ih (by omega))

theorem scanInv_runMatch (grid desired : List ℚ) :
    ScanInv grid desired (grid.length - 1) (matchScan grid desired (grid.length - 1)) :=
  scanInv_of_le grid desired (grid.length - 1) (le_refl _)

theorem runMatch_length (grid desired : List ℚ) :
    (runMatch grid desired).length = desired.length :=
  (scanInv_runMatch grid desired).len

/-- If the finished scan left no sentinel, the cursor consumed every desired
value. -/
theorem target_eq_of_success (grid desired : List ℚ)
    (h : ∀ x ∈ runMatch grid desired, 0 ≤ x) :
    (matchScan grid desired (grid.length - 1)).target = desired.length := by
  set s := matchScan grid desired (grid.length - 1) with hs
  have hinv := scanInv_runMatch grid desired
  by_contra hne
  have htlt : s.target < desired.length := lt_of_le_of_ne hinv.target_le hne
  have hsent : s.found.getD s.target 0 = -1 :=
    hinv.unset s.target (le_refl _) htlt
  have hmem : s.found.getD s.target 0 ∈ s.found :=
    getD_mem_of_lt _ _ _ (by rw [hinv.len]; exact htlt)
  have := h _ hmem
  rw [hsent] at this
  omega

theorem trueIndices_length (mask : List Bool) :
    (trueIndices mask).length = mask.count true := by
  induction mask with
  | nil => rfl
  | cons b bs ih => cases b <;> simp [trueIndices, List.count_cons, ih]

theorem trueIndices_lt (mask : List Bool) : ∀ i ∈ trueIndices mask, i < mask.length := by
  induction mask with
  | nil => simp [trueIndices]
  | cons b bs ih =>
    cases b
    · intro i hi
      simp only [trueIndices, List.mem_map] at hi
      obtain ⟨j, hj, rfl⟩ := hi
      simpa using Nat.succ_lt_succ (ih j hj)
    · intro i hi
      simp only [trueIndices, List.mem_cons, List.mem_map] at hi
      rcases hi with rfl | ⟨j, hj, rfl⟩
      · simp
      · simpa using Nat.succ_lt_succ (ih j hj)

theorem maskFilter_eq_map {α : Type} (mask : List Bool) (xs : List α) (d : α)
    (h : mask.length ≤ xs.length) :
    maskFilter mask xs = (trueIndices mask).map (fun i => xs.getD i d) := by
  induction mask generalizing xs with
  | nil => cases xs <;> rfl
  | cons b bs ih =>
    cases xs with
    | nil => simp at h
    | cons x xs' =>
      have h' : bs.length ≤ xs'.length := by simpa using h
      cases b
      · show maskFilter bs xs' = _
        rw [ih xs' h']
        simp [trueIndices, List.map_map, Function.comp_def, List.getD_cons_succ]
      · show x :: maskFilter bs xs' = _
        rw [ih xs' h']
        simp [trueIndices, List.map_map, Function.comp_def, List.getD_cons_succ]

theorem maskFilter_map_self {α : Type} (p : α → Bool) (xs : List α) :
    maskFilter (xs.map p) xs = xs.filter p := by
  induction xs with
  | nil => rfl
  | cons x xs' ih =>
    simp only [List.map_cons, List.filter_cons]
    cases hp : p x
    · simpa [maskFilter] using ih
    · simpa [maskFilter] using ih

theorem maskFilter_length {α : Type} (mask : List Bool) (xs : List α)
    (h : mask.length ≤ xs.length) :
    (maskFilter mask xs).length = mask.count true := by
  induction mask generalizing xs with
  | nil => cases xs <;> simp [maskFilter]
  | cons b bs ih =>
    cases xs with
    | nil => simp at h
    | cons x xs' =>
      have h' : bs.length ≤ xs'.length := by simpa using h
      cases b <;> simp [maskFilter, List.count_cons, ih xs' h']

theorem getD_map_lt {α β : Type} (f : α → β) (l : List α) (k : ℕ) (d : β) (d' : α)
    (h : k < l.length) : (l.map f).getD k d = f (l.getD k d') := by
  rw [List.getD_eq_getElem _ _ (by simpa using h), List.getD_eq_getElem _ _ h,
    List.getElem_map]

theorem accumulateRows_some (mask : List Bool) (rows : List (List ℚ))
    (a : List (List ℚ)) :
    accumulateRows mask rows (some a) = some (a ++ maskFilter mask rows) := by
  induction mask generalizing rows a with
  | nil => cases rows <;> simp [accumulateRows, maskFilter]
  | cons b bs ih =>
    cases rows with
    | nil => simp [accumulateRows, maskFilter]
    | cons r rs =>
      cases b
      · show accumulateRows bs rs (some a) = _
        rw [ih]
        rfl
      · show accumulateRows bs rs (some (a ++ [r])) = _
        rw [ih]
        show _ = some (a ++ r :: maskFilter bs rs)
        rw [List.append_assoc]
        rfl

theorem accumulateRows_start_none (mask : List Bool) (rows : List (List ℚ)) :
    accumulateRows mask rows none =
      if maskFilter mask rows = [] then none else some (maskFilter mask rows) := by
  induction mask generalizing rows with
  | nil => cases rows <;> simp [accumulateRows, maskFilter]
  | cons b bs ih =>
    cases rows with
    | nil => simp [accumulateRows, maskFilter]
    | cons r rs =>
      cases b
      · show accumulateRows bs rs none = _
        rw [ih]
        rfl
      · show accumulateRows bs rs (some [r]) =
          if r :: maskFilter bs rs = [] then none else some (r :: maskFilter bs rs)
        rw [accumulateRows_some, if_neg (by simp)]
        rfl

theorem sorted_getD_le (l : List ℚ) (h : List.Sorted (· < ·) l) (a b : ℕ)
    (hab : a ≤ b) (hb : b < l.length) : l.getD a 0 ≤ l.getD b 0 := by
  have ha : a < l.length := lt_of_le_of_lt hab hb
  rw [List.getD_eq_getElem _ _ ha, List.getD_eq_getElem _ _ hb]
  rcases Nat.eq_or_lt_of_le hab with rfl | hlt
  · exact le_refl _
  · have hfin := @List.Sorted.rel_get_of_lt ℚ (· < ·) l h ⟨a, ha⟩ ⟨b, hb⟩
      (Fin.mk_lt_mk.mpr hlt)
    simpa [List.get_eq_getElem] using le_of_lt hfin

theorem floor_toNat_eq_wholeSeconds (t : ℚ) :
    ((⌊t⌋ - 86400 * ⌊t / 86400⌋).toNat : ℤ) = wholeSecondsSinceMidnight t := by
  have h1 : (86400 : ℤ) * ⌊t / 86400⌋ ≤ ⌊t⌋ := by
    rw [Int.le_floor]
    push_cast
    have hle := Int.floor_le (t / 86400)
    nlinarith
  have h2 : wholeSecondsSinceMidnight t = ⌊t⌋ - 86400 * ⌊t / 86400⌋ := by
    unfold wholeSecondsSinceMidnight
    have hc : (86400 : ℚ) * (⌊t / 86400⌋ : ℚ) = ((86400 * ⌊t / 86400⌋ : ℤ) : ℚ) := by
      push_cast
      ring
    rw [hc, Int.floor_sub_int]
  rw [h2, Int.toNat_of_nonneg (by omega)]

/-- On a successful run, every field of the produced FOV product is the
corresponding mask-selected (and, for the selected radiances, channel-indexed)
transform of the input. -/
theorem create_fov_file_ok (center_angle angle_range : ℚ) (shis : ShisFile)
    (input_wnums : List ℚ) (out : FovFile)
    (h : create_fov_file center_angle angle_range shis input_wnums = Except.ok out) :
    out.obsnum = (angleMask center_angle angle_range shis.FOVangle).count true ∧
    out.Longitude = maskFilter (angleMask center_angle angle_range shis.FOVangle)
      shis.Longitude ∧
    out.Latitude = maskFilter (angleMask center_angle angle_range shis.FOVangle)
      shis.Latitude ∧
    out.time_offset = maskFilter (angleMask center_angle angle_range shis.FOVangle)
      shis.time_offset ∧
    out.TimeFracDay = (maskFilter (angleMask center_angle angle_range shis.FOVangle)
        shis.time_offset).map
      (fun o => datetime_to_matlab_datenum (fromtimestamp (o + shis.base_time))) ∧
    out.FOVangle = maskFilter (angleMask center_angle angle_range shis.FOVangle)
      shis.FOVangle ∧
    out.Radiance = maskFilter (angleMask center_angle angle_range shis.FOVangle)
      shis.radiance ∧
    out.selradiances = out.Radiance.map (fun row =>
      (runMatch shis.wavenumber (List.insertionSort (· ≤ ·) input_wnums)).map
        (fun i => row.getD i.toNat 0)) := by
  rw [create_fov_file] at h
  cases hf : runMatch shis.wavenumber (List.insertionSort (· ≤ ·) input_wnums) with
  | nil =>
    rw [hf] at h
    exact absurd h (by simp)
  | cons f fs =>
    rw [hf] at h
    dsimp only at h
    by_cases hmin : fs.foldl min f < 0
    · rw [if_pos hmin] at h
      exact absurd h (by simp)
    · rw [if_neg hmin] at h
      cases hacc : accumulateRows (angleMask center_angle angle_range shis.FOVangle)
          shis.radiance none with
      | none =>
        rw [hacc] at h
        exact absurd h (by simp)
      | some rs =>
        rw [hacc] at h
        have hrs : rs = maskFilter (angleMask center_angle angle_range shis.FOVangle)
            shis.radiance := by
          rw [accumulateRows_start_none] at hacc
          by_cases hemp :
              maskFilter (angleMask center_angle angle_range shis.FOVangle)
                shis.radiance = []
          · rw [if_pos hemp] at hacc
            exact absurd hacc (by simp)
          · rw [if_neg hemp] at hacc
            exact (Option.some.injEq _ _).mp hacc.symm
        have hout := h
        injection hout with hout'
        subst hout'
        exact ⟨rfl, rfl, rfl, rfl, rfl, rfl, hrs, rfl⟩

theorem foldl_min_le_all (l : List ℤ) (a x : ℤ) (h : x ∈ a :: l) : l.foldl min a ≤ x := by
  rcases List.mem_cons.mp h with rfl | hx
  · exact foldl_min_le_init l x
  · exact foldl_min_le_mem l a x hx

/-- A sentinel left anywhere in `found_indexes` sends `create_fov_file` into
the `numpy.min(found_indexes) < 0` early return. -/
theorem create_error_of_sentinel (center_angle angle_range : ℚ) (shis : ShisFile)
    (input_wnums : List ℚ)
    (h : (-1 : ℤ) ∈ runMatch shis.wavenumber (List.insertionSort (· ≤ ·) input_wnums)) :
    create_fov_file center_angle angle_range shis input_wnums =
      Except.error "Unable to find desired wave numbers in SHIS file" := by
  rw [create_fov_file]
  cases hf : runMatch shis.wavenumber (List.insertionSort (· ≤ ·) input_wnums) with
  | nil =>
    rw [hf] at h
    exact absurd h (by simp)
  | cons f fs =>
    rw [hf] at h
    dsimp only
    have hle : fs.foldl min f ≤ -1 := foldl_min_le_all fs f (-1) h
    rw [if_pos (by omega)]

/-- Running the scan with `desired = grid = W` matches target `j` to grid
position `j` at iteration `j` (the first branch fires), so after `n`
iterations exactly the first `n` targets are matched, identically. -/
theorem identityScan (W : List ℚ) :
    ∀ n, n ≤ W.length - 1 →
      (matchScan W W n).target = n ∧
      (∀ j, j < n → (matchScan W W n).found.getD j 0 = (j : ℤ)) ∧
      (∀ j, n ≤ j → j < W.length → (matchScan W W n).found.getD j 0 = -1) ∧
      (matchScan W W n).found.length = W.length := by
  intro n
  induction n with
  | zero =>
    intro _
    refine ⟨rfl, ?_, ?_, by simp [matchScan]⟩
    · intro j hj
      exact absurd hj (Nat.not_lt_zero j)
    · intro j _ hj
      simpa [matchScan] using getD_replicate_neg_one W.length j hj
  | succ m ih =>
    intro hm
    obtain ⟨ht, hset, hunset, hlen⟩ := ih (by omega)
    rw [matchScan_succ]
    set s := matchScan W W m with hs
    have hmlt : m < W.length := by omega
    have hlt : s.target < s.found.length := by rw [ht, hlen]; exact hmlt
    have hbr : branchResult W (W.getD s.target 0) m = some (m : ℤ) := by
      rw [ht]
      unfold branchResult
      rw [if_pos rfl]
    have hstep : matchStep W W m s =
        { found := s.found.set s.target (m : ℤ), target := s.target + 1 } := by
      unfold matchStep
      rw [if_pos hlt, hbr]
    rw [hstep]
    refine ⟨?_, ?_, ?_, ?_⟩
    · show s.target + 1 = m + 1
      rw [ht]
    · intro j hj
      show (s.found.set s.target (m : ℤ)).getD j 0 = (j : ℤ)
      rcases Nat.lt_or_ge j m with hjm | hjm
      · rw [getD_set_ne _ _ _ _ (by rw [ht]; omega)]
        exact hset j hjm
      · have hje : j = m := by omega
        subst hje
        have hrw : s.found.set s.target (j : ℤ) = s.found.set j (j : ℤ) := by rw [ht]
        rw [hrw, getD_set_self _ _ _ (by rw [hlen]; exact hmlt)]
    · intro j hj1 hj2
      show (s.found.set s.target (m : ℤ)).getD j 0 = -1
      rw [getD_set_ne _ _ _ _ (by rw [ht]; omega)]
      exact hunset j (by omega) hj2
    · show (s.found.set s.target (m : ℤ)).length = W.length
      rw [List.length_set]
      exact hlen

/-- If no loop-body branch can ever fire for desired value number `j0`, the
cursor never gets past `j0`. -/
theorem target_le_blocked (grid desired : List ℚ) (j0 : ℕ)
    (hstuck : ∀ index, index + 1 < grid.length →
      branchResult grid (desired.getD j0 0) index = none) :
    ∀ n, n ≤ grid.length - 1 → (matchScan grid desired n).target ≤ j0 := by
  intro n
  induction n with
  | zero =>
    intro _
    exact Nat.zero_le j0
  | succ m ih =>
    intro hm
    have hmle := ih (by omega)
    rw [matchScan_succ]
    set s := matchScan grid desired m with hs
    rcases Nat.lt_or_ge s.target j0 with hlt | hge
    · rcases matchStep_eq_or grid desired m s with heq | ⟨_, v, _, heq⟩
      · rw [heq]
        omega
      · rw [heq]
        show s.target + 1 ≤ j0
        omega
    · have hj0 : s.target = j0 := le_antisymm hmle hge
      have hbnone : branchResult grid (desired.getD s.target 0) m = none := by
        rw [hj0]
        exact hstuck m (by omega)
      have hid : matchStep grid desired m s = s := by
        unfold matchStep
        by_cases hl : s.target < s.found.length
        · rw [if_pos hl, hbnone]
        · rw [if_neg hl]
      rw [hid]
      omega

/-- C7: for every observation, the calendar-serial (matlab datenum) time of
epoch second `offset + base_time` is the proleptic ordinal of its local
calendar date, plus 366, plus the whole seconds since local midnight divided
by 86400.  (Floating point is modelled as exact rational arithmetic.) -/
theorem c7_matlab_datenum (base_time offset : ℚ) :
    datetime_to_matlab_datenum (fromtimestamp (offset + base_time)) =
      ((localOrdinalDay (offset + base_time) + 366 : ℤ) : ℚ) +
        (wholeSecondsSinceMidnight (offset + base_time) : ℚ) / 86400 := by
  have hsec := floor_toNat_eq_wholeSeconds (offset + base_time)
  unfold datetime_to_matlab_datenum toordinal addDays secondsSinceMidnight fromtimestamp
    localOrdinalDay
  rw [← hsec]
  push_cast
  ring

/-- C6: the geometry filter mask has one entry per observation, entry `k` is
true exactly when angle `k` lies inside the inclusive window
`[center - range, center + range]`, and the written observation dimension is
the number of true entries of the mask. -/
theorem c6_geometry_filter (center_angle angle_range : ℚ) (angles : List ℚ) :
    (angleMask center_angle angle_range angles).length = angles.length ∧
    (∀ k, k < angles.length →
      ((angleMask center_angle angle_range angles).getD k false = true ↔
        (center_angle - angle_range ≤ angles.getD k 0 ∧
          angles.getD k 0 ≤ center_angle + angle_range))) ∧
    (∀ (shis : ShisFile) (input_wnums : List ℚ) (out : FovFile),
      shis.FOVangle = angles →
      create_fov_file center_angle angle_range shis input_wnums = Except.ok out →
      out.obsnum = (angleMask center_angle angle_range angles).count true) := by
  refine ⟨List.length_map _ _, ?_, ?_⟩
  · intro k hk
    unfold angleMask
    rw [getD_map_lt _ _ _ _ 0 hk]
    unfold inAngleRange
    simp only [Bool.and_eq_true, decide_eq_true_eq]
  · intro shis input_wnums out hang hok
    have hobs := (create_fov_file_ok _ _ _ _ _ hok).1
    rw [hang] at hobs
    exact hobs

/-- `create_fov_file` on the sample input produces exactly `sampleOut`. -/
theorem create_fov_file_sample :
    create_fov_file 0 (3 / 2) sampleShis [1] = Except.ok sampleOut := by
  with_unfolding_all rfl

/-- Witness for C6 at the spec's own example angles and on the sample run. -/
theorem c6_geometry_filter_witness :
    ((angleMask 0 (3 / 2) [(-2 : ℚ), -1, 0, 1, 2]).getD 1 false = true ↔
      ((0 : ℚ) - 3 / 2 ≤ -1 ∧ (-1 : ℚ) ≤ 0 + 3 / 2)) ∧
    sampleOut.obsnum = (angleMask 0 (3 / 2) [(-2 : ℚ), -1, 0, 1, 2]).count true := by
  constructor
  · exact (c6_geometry_filter 0 (3 / 2) [(-2 : ℚ), -1, 0, 1, 2]).2.1 1 (by norm_num)
  · exact (c6_geometry_filter 0 (3 / 2) [(-2 : ℚ), -1, 0, 1, 2]).2.2 sampleShis [1]
      sampleOut rfl create_fov_file_sample

/-- C4: whenever the matching scan leaves the `-1` sentinel anywhere, the
conversion stops with the "channels not found" condition; in the source this
`return` happens before the output file is created, so no FOV file and no
partial product is produced. -/
theorem c4_unmatched_aborts (center_angle angle_range : ℚ) (shis : ShisFile)
    (input_wnums : List ℚ)
    (h : (-1 : ℤ) ∈ runMatch shis.wavenumber (List.insertionSort (· ≤ ·) input_wnums)) :
    create_fov_file center_angle angle_range shis input_wnums =
      Except.error "Unable to find desired wave numbers in SHIS file" :=
  create_error_of_sentinel center_angle angle_range shis input_wnums h

/-- Witness for C4: desired `[1, 2]` against grid `[1, 2]` leaves a sentinel
and the conversion aborts. -/
theorem c4_unmatched_aborts_witness :
    create_fov_file 0 (3 / 2) sampleShisUnmatched [1, 2] =
      Except.error "Unable to find desired wave numbers in SHIS file" :=
  c4_unmatched_aborts 0 (3 / 2) sampleShisUnmatched [1, 2] (by with_unfolding_all decide)

/-- C5 (code behaviour): on an input whose geometry filter selects zero
observations the conversion does NOT produce an empty product; the radiance
accumulator is still Python `None` and `numpy.reshape(None, (0, channels))`
raises, so the run dies with an error while the spec promises a
zero-length-dimensioned product. -/
theorem c5_empty_selection_crashes :
    (angleMask 0 (3 / 2) sampleShisEmptySel.FOVangle).count true = 0 ∧
    create_fov_file 0 (3 / 2) sampleShisEmptySel [1] =
      Except.error "cannot reshape array of size 1" := by
  constructor
  · with_unfolding_all rfl
  · with_unfolding_all rfl

/-- C2 counterexample: for the sorted, strictly ascending, duplicate-free
wavenumber list `W = [1, 2]`, running the matcher with grid = W and
desired = W does NOT produce the identity map: the result is `[0, -1]` — the
last entry keeps the sentinel, because the scan consumes at most one desired
value per grid position and there are only `|W| - 1` positions. -/
theorem c2_round_trip_counterexample :
    List.Sorted (· < ·) [(1 : ℚ), 2] ∧ 1 ≤ ([(1 : ℚ), 2]).length ∧
    runMatch [(1 : ℚ), 2] [(1 : ℚ), 2] = [0, -1] ∧
    (-1 : ℤ) ∈ runMatch [(1 : ℚ), 2] [(1 : ℚ), 2] ∧
    ¬(runMatch [(1 : ℚ), 2] [(1 : ℚ), 2]).getD 1 0 = 1 := by
  refine ⟨?_, ?_, ?_, ?_, ?_⟩ <;> with_unfolding_all decide

/-- C2 as amended: with grid = desired = W (|W| = M ≥ 1), the matcher maps
entries 0 .. M-2 identically but always leaves the LAST entry at the `-1`
sentinel; a sentinel therefore remains, so on any SHIS file whose grid is W
and any input list sorting to W the round trip aborts with the
channels-not-found error instead of reproducing the identity; the geometry
filter re-run on its own selected angles does produce an all-true mask. -/
theorem c2_round_trip_amended (W : List ℚ) (hlen : 1 ≤ W.length)
    (hsort : List.Sorted (· < ·) W) :
    ((∀ j, j + 1 < W.length → (runMatch W W).getD j 0 = (j : ℤ)) ∧
      (runMatch W W).getD (W.length - 1) 0 = -1 ∧
      (-1 : ℤ) ∈ runMatch W W) ∧
    (∀ (center_angle angle_range : ℚ) (shis : ShisFile) (input_wnums : List ℚ),
      shis.wavenumber = W →
      List.insertionSort (· ≤ ·) input_wnums = W →
      create_fov_file center_angle angle_range shis input_wnums =
        Except.error "Unable to find desired wave numbers in SHIS file") ∧
    (∀ (center_angle angle_range : ℚ) (angles : List ℚ),
      ∀ b ∈ angleMask center_angle angle_range
        (maskFilter (angleMask center_angle angle_range angles) angles), b = true) := by
  obtain ⟨ht, hset, hunset, hflen⟩ := identityScan W (W.length - 1) (le_refl _)
  have hlast : (runMatch W W).getD (W.length - 1) 0 = -1 :=
    hunset (W.length - 1) (le_refl _) (by omega)
  have hmem : (-1 : ℤ) ∈ runMatch W W := by
    rw [← hlast]
    exact getD_mem_of_lt _ _ _ (by rw [runMatch_length]; omega)
  refine ⟨⟨?_, hlast, hmem⟩, ?_, ?_⟩
  · intro j hj
    exact hset j (by omega)
  · intro center_angle angle_range shis input_wnums hw hi
    apply create_error_of_sentinel
    rw [hw, hi]
    exact hmem
  · intro center_angle angle_range angles b hb
    unfold angleMask at hb
    rw [maskFilter_map_self] at hb
    rw [List.mem_map] at hb
    obtain ⟨a, ha, rfl⟩ := hb
    exact List.of_mem_filter ha

/-- Witness for the amended C2 at `W = [5, 7]`: prefix entry 0, sentinel in
the last entry, the aborted conversion on a SHIS file with that grid, and the
all-true re-filtered mask. -/
theorem c2_round_trip_amended_witness :
    (runMatch [(5 : ℚ), 7] [(5 : ℚ), 7]).getD 0 0 = 0 ∧
    (runMatch [(5 : ℚ), 7] [(5 : ℚ), 7]).getD 1 0 = -1 ∧
    (-1 : ℤ) ∈ runMatch [(5 : ℚ), 7] [(5 : ℚ), 7] ∧
    create_fov_file 0 1 sampleShisBelowGrid [(5 : ℚ), 7] =
      Except.error "Unable to find desired wave numbers in SHIS file" ∧
    ∀ b ∈ angleMask 0 1 (maskFilter (angleMask 0 1 [(0 : ℚ)]) [(0 : ℚ)]), b = true := by
  have h := c2_round_trip_amended [(5 : ℚ), 7] (by decide) (by with_unfolding_all decide)
  exact ⟨h.1.1 0 (by decide), h.1.2.1, h.1.2.2,
    h.2.1 0 1 sampleShisBelowGrid [(5 : ℚ), 7] rfl (by with_unfolding_all decide),
    h.2.2 0 1 [(0 : ℚ)]⟩

/-- C3 counterexample: grid `[0, 2]`, desired `[1]`.  The desired value 1 is
the exact midpoint of the straddling pair, the claim demands the lower index
0, but the scan matches it to the UPPER index 1 (the strict `<` in
`(desired - grid[i]) < (grid[i+1] - desired)` fails on equality and the
`else` branch takes `index + 1`). -/
theorem c3_midpoint_counterexample :
    ((1 : ℚ) - 0 = 2 - 1) ∧
    runMatch [(0 : ℚ), 2] [(1 : ℚ)] = [1] ∧
    runMatch [(0 : ℚ), 2] [(1 : ℚ)] ≠ [0] := by
  refine ⟨by norm_num, ?_, ?_⟩ <;> with_unfolding_all decide

/-- C3 as amended: a matched desired value lying strictly between the
adjacent grid values `grid[i]` and `grid[i+1]` is matched to the strictly
closer of the two indices; when the two absolute differences are exactly
equal, the UPPER index `i + 1` is chosen. -/
theorem c3_between_amended (grid desired : List ℚ)
    (hg : List.Sorted (· < ·) grid) (j i : ℕ)
    (hj : j < desired.length) (hi : i + 1 < grid.length)
    (hlow : grid.getD i 0 < desired.getD j 0)
    (hhigh : desired.getD j 0 < grid.getD (i + 1) 0)
    (hmatched : 0 ≤ (runMatch grid desired).getD j 0) :
    (runMatch grid desired).getD j 0 =
      if desired.getD j 0 - grid.getD i 0 < grid.getD (i + 1) 0 - desired.getD j 0
      then (i : ℤ) else (i : ℤ) + 1 := by
  have hinv := scanInv_runMatch grid desired
  have hjt : j < (matchScan grid desired (grid.length - 1)).target := by
    by_contra hge
    have hsent : (matchScan grid desired (grid.length - 1)).found.getD j 0 = -1 :=
      hinv.unset j (by omega) hj
    have : (runMatch grid desired).getD j 0 = -1 := hsent
    omega
  obtain ⟨index, _, hib, hbr⟩ := hinv.fired j hjt
  have hnotmem : ∀ k, k < grid.length → desired.getD j 0 ≠ grid.getD k 0 := by
    intro k hk
    rcases le_or_lt k i with hki | hki
    · have hle : grid.getD k 0 ≤ grid.getD i 0 :=
        sorted_getD_le grid hg k i hki (by omega)
      exact ne_of_gt (lt_of_le_of_lt hle hlow)
    · have hle : grid.getD (i + 1) 0 ≤ grid.getD k 0 :=
        sorted_getD_le grid hg (i + 1) k hki hk
      exact ne_of_lt (lt_of_lt_of_le hhigh hle)
  unfold branchResult at hbr
  split_ifs at hbr with h1 h2 h3 h4
  · exact absurd h1 (hnotmem index (by omega))
  · exact absurd h2 (hnotmem (index + 1) hib)
  · have hieq : index = i := by
      by_contra hne
      rcases Nat.lt_or_ge index i with hlt | hgt
      · have hle : grid.getD (index + 1) 0 ≤ grid.getD i 0 :=
          sorted_getD_le grid hg (index + 1) i hlt (by omega)
        exact absurd h3.2 (not_lt.mpr (le_trans hle (le_of_lt hlow)))
      · have hgi : i + 1 ≤ index := by omega
        have hle : grid.getD (i + 1) 0 ≤ grid.getD index 0 :=
          sorted_getD_le grid hg (i + 1) index hgi (by omega)
        exact absurd h3.1 (not_lt.mpr (le_of_lt (lt_of_lt_of_le hhigh hle)))
    rw [hieq] at hbr h4
    have hv : (i : ℤ) = (runMatch grid desired).getD j 0 :=
      (Option.some.injEq _ _).mp hbr
    rw [if_pos h4]
    exact hv.symm
  · have hieq : index = i := by
      by_contra hne
      rcases Nat.lt_or_ge index i with hlt | hgt
      · have hle : grid.getD (index + 1) 0 ≤ grid.getD i 0 :=
          sorted_getD_le grid hg (index + 1) i hlt (by omega)
        exact absurd h3.2 (not_lt.mpr (le_trans hle (le_of_lt hlow)))
      · have hgi : i + 1 ≤ index := by omega
        have hle : grid.getD (i + 1) 0 ≤ grid.getD index 0 :=
          sorted_getD_le grid hg (i + 1) index hgi (by omega)
        exact absurd h3.1 (not_lt.mpr (le_of_lt (lt_of_lt_of_le hhigh hle)))
    rw [hieq] at hbr h4
    have hv : (i : ℤ) + 1 = (runMatch grid desired).getD j 0 :=
      (Option.some.injEq _ _).mp hbr
    rw [if_neg h4]
    exact hv.symm

/-- Witness for the amended C3 at the midpoint example. -/
theorem c3_between_amended_witness :
    (runMatch [(0 : ℚ), 2] [(1 : ℚ)]).getD 0 0 =
      if ([(1 : ℚ)]).getD 0 0 - ([(0 : ℚ), 2]).getD 0 0 <
          ([(0 : ℚ), 2]).getD (0 + 1) 0 - ([(1 : ℚ)]).getD 0 0
      then (0 : ℤ) else (0 : ℤ) + 1 :=
  c3_between_amended [(0 : ℚ), 2] [(1 : ℚ)] (by with_unfolding_all decide) 0 0
    (by decide) (by decide) (by with_unfolding_all decide)
    (by with_unfolding_all decide) (by with_unfolding_all decide)

/-- C8: on a strictly ascending grid and an ascending desired list, whenever
the scan succeeds (no sentinel remains), the resulting ChannelIndexMap is
monotonically non-decreasing. -/
theorem c8_monotone_map (grid desired : List ℚ)
    (hg : List.Sorted (· < ·) grid) (hd : List.Sorted (· ≤ ·) desired)
    (hsucc : ∀ x ∈ runMatch grid desired, 0 ≤ x) :
    ∀ j, j + 1 < (runMatch grid desired).length →
      (runMatch grid desired).getD j 0 ≤ (runMatch grid desired).getD (j + 1) 0 := by
  intro j hj
  have hinv := scanInv_runMatch grid desired
  have htarget := target_eq_of_success grid desired hsucc
  rw [runMatch_length] at hj
  exact hinv.mono j (by rw [htarget]; exact hj)

/-- Witness for C8: grid `[1, 2, 3]`, desired `[1, 2]` succeeds with map
`[0, 1]`, whose adjacent entries are non-decreasing. -/
theorem c8_monotone_map_witness :
    (runMatch [(1 : ℚ), 2, 3] [(1 : ℚ), 2]).getD 0 0 ≤
      (runMatch [(1 : ℚ), 2, 3] [(1 : ℚ), 2]).getD 1 0 :=
  c8_monotone_map [(1 : ℚ), 2, 3] [(1 : ℚ), 2] (by with_unfolding_all decide)
    (by with_unfolding_all decide) (by with_unfolding_all decide) 0
    (by with_unfolding_all decide)

/-- C10: whenever the scan succeeds, every entry of the ChannelIndexMap lies
in `[0, M-1]` for `M` the grid length, so indexing the wavenumber grid and
the radiance rows (each of length `M`) with these entries stays in bounds. -/
theorem c10_map_in_bounds (grid desired : List ℚ)
    (hsucc : ∀ x ∈ runMatch grid desired, 0 ≤ x) :
    ∀ x ∈ runMatch grid desired, 0 ≤ x ∧ x.toNat < grid.length := by
  intro x hx
  refine ⟨hsucc x hx, ?_⟩
  have hinv := scanInv_runMatch grid desired
  have htarget := target_eq_of_success grid desired hsucc
  obtain ⟨n, hn, hxn⟩ := List.getElem_of_mem hx
  have hxd : (runMatch grid desired).getD n 0 = x := by
    rw [List.getD_eq_getElem _ _ hn]
    exact hxn
  have hnlt : n < (matchScan grid desired (grid.length - 1)).target := by
    rw [htarget]
    rw [runMatch_length] at hn
    exact hn
  obtain ⟨index, _, hib, hbr⟩ := hinv.fired n hnlt
  have hveq : x = (matchScan grid desired (grid.length - 1)).found.getD n 0 := hxd.symm
  rcases branchResult_some grid _ index hbr with h1 | h1 <;> rw [hveq, h1] <;> omega

/-- Witness for C10: grid `[1, 2, 3]`, desired `[2]` gives map `[1]`; the
entry 1 is non-negative and indexes the 3-element grid in bounds. -/
theorem c10_map_in_bounds_witness :
    0 ≤ (1 : ℤ) ∧ (1 : ℤ).toNat < ([(1 : ℚ), 2, 3]).length :=
  c10_map_in_bounds [(1 : ℚ), 2, 3] [(2 : ℚ)] (by with_unfolding_all decide) 1
    (by with_unfolding_all decide)

/-- C9: a desired wavenumber strictly below the first grid value (or strictly
above the last) can never fire a branch, so its entry — and, because the
cursor cannot pass it, every later entry — stays at the sentinel through the
whole scan, and the conversion aborts with no output file. -/
theorem c9_outside_grid_blocks (center_angle angle_range : ℚ) (shis : ShisFile)
    (input_wnums : List ℚ) (j0 : ℕ)
    (hg : List.Sorted (· < ·) shis.wavenumber)
    (hj0 : j0 < (List.insertionSort (· ≤ ·) input_wnums).length)
    (hout :
      (List.insertionSort (· ≤ ·) input_wnums).getD j0 0 <
          shis.wavenumber.getD 0 0 ∨
        shis.wavenumber.getD (shis.wavenumber.length - 1) 0 <
          (List.insertionSort (· ≤ ·) input_wnums).getD j0 0) :
    (∀ j, j0 ≤ j → j < (List.insertionSort (· ≤ ·) input_wnums).length →
      (runMatch shis.wavenumber (List.insertionSort (· ≤ ·) input_wnums)).getD j 0 = -1) ∧
    create_fov_file center_angle angle_range shis input_wnums =
      Except.error "Unable to find desired wave numbers in SHIS file" := by
  have hstuck : ∀ index, index + 1 < shis.wavenumber.length →
      branchResult shis.wavenumber
        ((List.insertionSort (· ≤ ·) input_wnums).getD j0 0) index = none := by
    intro index hib
    have hi1 : index < shis.wavenumber.length := by omega
    unfold branchResult
    rcases hout with hlow | hhigh
    · have h0i : shis.wavenumber.getD 0 0 ≤ shis.wavenumber.getD index 0 :=
        sorted_getD_le shis.wavenumber hg 0 index (Nat.zero_le _) hi1
      have h0i1 : shis.wavenumber.getD 0 0 ≤ shis.wavenumber.getD (index + 1) 0 :=
        sorted_getD_le shis.wavenumber hg 0 (index + 1) (Nat.zero_le _) hib
      have hd1 := lt_of_lt_of_le hlow h0i
      have hd2 := lt_of_lt_of_le hlow h0i1
      rw [if_neg (ne_of_lt hd1), if_neg (ne_of_lt hd2),
        if_neg (by rintro ⟨h3a, _⟩; exact absurd h3a (not_lt.mpr (le_of_lt hd1)))]
    · have hiM : shis.wavenumber.getD index 0 ≤
          shis.wavenumber.getD (shis.wavenumber.length - 1) 0 :=
        sorted_getD_le shis.wavenumber hg index (shis.wavenumber.length - 1)
          (by omega) (by omega)
      have hi1M : shis.wavenumber.getD (index + 1) 0 ≤
          shis.wavenumber.getD (shis.wavenumber.length - 1) 0 :=
        sorted_getD_le shis.wavenumber hg (index + 1) (shis.wavenumber.length - 1)
          (by omega) (by omega)
      have hd1 := lt_of_le_of_lt hiM hhigh
      have hd2 := lt_of_le_of_lt hi1M hhigh
      rw [if_neg (ne_of_gt hd1), if_neg (ne_of_gt hd2),
        if_neg (by rintro ⟨_, h3b⟩; exact absurd h3b (not_lt.mpr (le_of_lt hd2)))]
  have hall : ∀ j, j0 ≤ j → j < (List.insertionSort (· ≤ ·) input_wnums).length →
      (runMatch shis.wavenumber (List.insertionSort (· ≤ ·) input_wnums)).getD j 0
        = -1 := by
    intro j hj hjlen
    have hinv := scanInv_runMatch shis.wavenumber (List.insertionSort (· ≤ ·) input_wnums)
    have htle := target_le_blocked shis.wavenumber
      (List.insertionSort (· ≤ ·) input_wnums) j0 hstuck
      (shis.wavenumber.length - 1) (le_refl _)
    exact hinv.unset j (le_trans htle hj) hjlen
  refine ⟨hall, ?_⟩
  apply create_error_of_sentinel
  have hlenr := runMatch_length shis.wavenumber (List.insertionSort (· ≤ ·) input_wnums)
  have hj0v := hall j0 (le_refl _) hj0
  rw [← hj0v]
  exact getD_mem_of_lt _ _ _ (by rw [hlenr]; exact hj0)

/-- Witness for C9: desired wavenumber 1 lies below grid `[5, 7]`; the map
entry stays `-1` and the conversion aborts. -/
theorem c9_outside_grid_blocks_witness :
    (runMatch sampleShisBelowGrid.wavenumber
      (List.insertionSort (· ≤ ·) [(1 : ℚ)])).getD 0 0 = -1 ∧
    create_fov_file 0 (3 / 2) sampleShisBelowGrid [(1 : ℚ)] =
      Except.error "Unable to find desired wave numbers in SHIS file" := by
  have h := c9_outside_grid_blocks 0 (3 / 2) sampleShisBelowGrid [(1 : ℚ)] 0
    (by with_unfolding_all decide) (by with_unfolding_all decide)
    (Or.inl (by with_unfolding_all decide))
  exact ⟨h.1 0 (le_refl 0) (by with_unfolding_all decide), h.2⟩

/-- C1: on a successful run, output row `k` of longitude, latitude, viewing
angle, time offset, calendar time and full radiance all come from the `k`-th
original row at which the mask is true (in original order), and column `j`
of the selected-radiance array is column `ChannelIndexMap[j]` of the
full-radiance array of the same row. -/
theorem c1_subset_correspondence (center_angle angle_range : ℚ) (shis : ShisFile)
    (input_wnums : List ℚ) (out : FovFile)
    (hlon : shis.Longitude.length = shis.FOVangle.length)
    (hlat : shis.Latitude.length = shis.FOVangle.length)
    (hoff : shis.time_offset.length = shis.FOVangle.length)
    (hrad : shis.radiance.length = shis.FOVangle.length)
    (hok : create_fov_file center_angle angle_range shis input_wnums = Except.ok out) :
    ∀ k, k < out.obsnum →
      out.Longitude.getD k 0 = shis.Longitude.getD
        ((trueIndices (angleMask center_angle angle_range shis.FOVangle)).getD k 0) 0 ∧
      out.Latitude.getD k 0 = shis.Latitude.getD
        ((trueIndices (angleMask center_angle angle_range shis.FOVangle)).getD k 0) 0 ∧
      out.FOVangle.getD k 0 = shis.FOVangle.getD
        ((trueIndices (angleMask center_angle angle_range shis.FOVangle)).getD k 0) 0 ∧
      out.time_offset.getD k 0 = shis.time_offset.getD
        ((trueIndices (angleMask center_angle angle_range shis.FOVangle)).getD k 0) 0 ∧
      out.TimeFracDay.getD k 0 = datetime_to_matlab_datenum (fromtimestamp
        (shis.time_offset.getD
          ((trueIndices (angleMask center_angle angle_range shis.FOVangle)).getD k 0) 0 +
          shis.base_time)) ∧
      out.Radiance.getD k [] = shis.radiance.getD
        ((trueIndices (angleMask center_angle angle_range shis.FOVangle)).getD k 0) [] ∧
      (∀ j, j < (runMatch shis.wavenumber
          (List.insertionSort (· ≤ ·) input_wnums)).length →
        (out.selradiances.getD k []).getD j 0 = (out.Radiance.getD k []).getD
          ((runMatch shis.wavenumber
            (List.insertionSort (· ≤ ·) input_wnums)).getD j 0).toNat 0) := by
  intro k hk
  obtain ⟨hobs, hlonf, hlatf, hofff, htimef, hangf, hradf, hself⟩ :=
    create_fov_file_ok center_angle angle_range shis input_wnums out hok
  set mask := angleMask center_angle angle_range shis.FOVangle with hmask
  have hmlen : mask.length = shis.FOVangle.length := List.length_map _ _
  have htlen : (trueIndices mask).length = mask.count true := trueIndices_length mask
  have hkt : k < (trueIndices mask).length := by
    rw [htlen]
    rw [hobs] at hk
    exact hk
  have hsel : ∀ (xs : List ℚ), mask.length ≤ xs.length →
      (maskFilter mask xs).getD k 0 = xs.getD ((trueIndices mask).getD k 0) 0 := by
    intro xs hxs
    rw [maskFilter_eq_map mask xs 0 hxs]
    exact getD_map_lt _ _ _ _ 0 hkt
  refine ⟨?_, ?_, ?_, ?_, ?_, ?_, ?_⟩
  · rw [hlonf]
    exact hsel shis.Longitude (by omega)
  · rw [hlatf]
    exact hsel shis.Latitude (by omega)
  · rw [hangf]
    exact hsel shis.FOVangle (by omega)
  · rw [hofff]
    exact hsel shis.time_offset (by omega)
  · rw [htimef]
    have hklen : k < (maskFilter mask shis.time_offset).length := by
      rw [maskFilter_length mask shis.time_offset (by omega), ← hobs]
      exact hk
    rw [getD_map_lt _ _ _ _ 0 hklen, hsel shis.time_offset (by omega)]
  · rw [hradf]
    rw [maskFilter_eq_map mask shis.radiance [] (by omega)]
    exact getD_map_lt _ _ _ [] 0 hkt
  · intro j hj
    have hkr : k < out.Radiance.length := by
      rw [hradf, maskFilter_length mask shis.radiance (by omega), ← hobs]
      exact hk
    rw [hself, getD_map_lt _ _ _ _ [] hkr]
    exact getD_map_lt _ _ _ _ 0 hj

/-- Witness for C1 on the sample run: output row 0 comes from original row 1
(the first mask-true row), and selected-radiance column 0 is full-radiance
column 0 (the matched channel). -/
theorem c1_subset_correspondence_witness :
    sampleOut.Longitude.getD 0 0 = sampleShis.Longitude.getD
      ((trueIndices (angleMask 0 (3 / 2) sampleShis.FOVangle)).getD 0 0) 0 ∧
    (sampleOut.selradiances.getD 0 []).getD 0 0 = (sampleOut.Radiance.getD 0 []).getD
      ((runMatch sampleShis.wavenumber
        (List.insertionSort (· ≤ ·) [(1 : ℚ)])).getD 0 0).toNat 0 := by
  have h := c1_subset_correspondence 0 (3 / 2) sampleShis [(1 : ℚ)] sampleOut
    rfl rfl rfl rfl create_fov_file_sample 0 (by with_unfolding_all decide)
  exact ⟨h.1, h.2.2.2.2.2.2 0 (by with_unfolding_all decide)⟩

end Shis2Mirto
